import Mathlib

/-!
Verification of the Testify.js bookkeeping core against its specification.

The repository holds two full copies of the suite runtime:
  * `src/unnamed/part_000`        — embedded below as namespace `Testify`
  * `src/lib/Testify/Testify.js`  — embedded below as namespace `TestifyLib`
The two copies are textually identical except for:
  * default assertion messages in `recordTest`, `assert` and `assertEqual`,
  * the guard on the `before` hook inside `run`
    (`this._before !== null && isCallable(this._before)` vs `isCallable(this._before)`),
  * `recordTest`'s `bt` (`''` vs `printStackTrace()`),
  * `part_000`'s `run` additionally pushes the suite onto the global
    `Constructor.instances` registry (a process-global effect, not suite state).
Definitions that are textually identical in both files (the value model, the
callable guard, the registration methods) are embedded once and shared.
-/

/-- The two kinds of runtime error the embedded code can raise:
`TypeError` from a property access on `null`/`undefined`, and the library's own
`TestifyException` (its `name` field is the constant string `'TestifyException'`;
only the `message` field varies, so only it is modelled). -/
inductive JSErr where
  | typeError
  | testifyException (message : String)
deriving DecidableEq, Repr

/-- JavaScript values, restricted to the shapes the library's call sites use:
primitives, arrays, and function values.  Numbers are modelled as integers plus
a separate `nan` constructor (the claims only involve integral numbers; the
float-specific behaviour of JS numbers is not exercised by any claim).
A function value carries no payload here; where a callback's behaviour matters
the code below uses `CallbackArg`. -/
inductive JSVal where
  | undefined
  | null
  | bool (b : Bool)
  | num (n : Int)
  | nan
  | str (s : String)
  | arr (xs : List JSVal)
  | fnVal

/-- Digits-only parse; `none` when empty or a non-digit appears.  Helper for
the string-to-number coercion. -/
def digitsToNat : List Char → Option Nat
  | [] => none
  | cs =>
    cs.foldl
      (fun acc c =>
        match acc with
        | none => none
        | some n => if c.isDigit then some (n * 10 + (c.toNat - 48)) else none)
      (some 0)

/-- JS `ToNumber` on a string, restricted to integral numerals: surrounding
whitespace is trimmed, the empty string is `0`, an optional sign followed by
digits parses as an integer, anything else is `NaN` (`none`).  (Hex and float
literals are outside every claim and are mapped to `NaN`.) -/
def strToNum (s : String) : Option Int :=
  let t := ((s.data.dropWhile Char.isWhitespace).reverse.dropWhile
    Char.isWhitespace).reverse
  match t with
  | [] => some 0
  | '-' :: rest => (digitsToNat rest).map (fun n => -(n : Int))
  | '+' :: rest => (digitsToNat rest).map (fun n => (n : Int))
  | cs => (digitsToNat cs).map (fun n => (n : Int))

/-- JS `ToString` on a value.  Array elements join with `","`, with `null` and
`undefined` elements rendered as the empty string per `Array.prototype.join`.
The source text of a function is irrelevant to every claim and is rendered as
a fixed token. -/
def jsToString : JSVal → String
  | .undefined => "undefined"
  | .null => "null"
  | .bool b => if b then "true" else "false"
  | .num n => toString n
  | .nan => "NaN"
  | .str s => s
  | .fnVal => "function"
  | .arr xs => String.intercalate "," (jsToStringElems xs)
where
  /-- Element rendering for `Array.prototype.join`. -/
  jsToStringElems : List JSVal → List String
  | [] => []
  | .null :: xs => "" :: jsToStringElems xs
  | .undefined :: xs => "" :: jsToStringElems xs
  | x :: xs => jsToString x :: jsToStringElems xs

/-- JS `ToNumber`; `none` is `NaN`.  Arrays coerce through `ToPrimitive`
(their join string). -/
def jsToNum : JSVal → Option Int
  | .undefined => none
  | .null => some 0
  | .bool b => some (if b then 1 else 0)
  | .num n => some n
  | .nan => none
  | .str s => strToNum s
  | .fnVal => none
  | .arr xs => strToNum (jsToString (.arr xs))

/-- Numeric equality where `none` is `NaN` (never equal to anything). -/
def numEq : Option Int → Option Int → Bool
  | some a, some b => a == b
  | _, _ => false

/-- JS strict equality `===`.  Two object (array/function) *literals* are never
reference-equal, and no claim compares an object with itself, so the object
cases are `false`. -/
def strictEq : JSVal → JSVal → Bool
  | .undefined, .undefined => true
  | .null, .null => true
  | .bool a, .bool b => a == b
  | .num a, .num b => a == b
  | .str a, .str b => a == b
  | _, _ => false

/-- JS loose (coercive) equality `==`, following the abstract equality
algorithm on this value universe: `null`/`undefined` equal only each other;
two strings compare as strings; an object meeting a string compares via its
join string; object-object comparison is reference equality (`false` for
distinct literals, and no claim compares a value with itself); every remaining
mixed case converts both sides with `ToNumber` (`NaN` equal to nothing). -/
def looseEq : JSVal → JSVal → Bool
  | .null, .null => true
  | .undefined, .undefined => true
  | .null, .undefined => true
  | .undefined, .null => true
  | .null, _ => false
  | _, .null => false
  | .undefined, _ => false
  | _, .undefined => false
  | .arr _, .arr _ => false
  | .fnVal, .fnVal => false
  | .arr _, .fnVal => false
  | .fnVal, .arr _ => false
  | .str a, .str b => a == b
  | .str a, .arr xs => a == jsToString (.arr xs)
  | .arr xs, .str a => jsToString (.arr xs) == a
  | .str a, .fnVal => a == jsToString .fnVal
  | .fnVal, .str a => jsToString .fnVal == a
  | a, b => numEq (jsToNum a) (jsToNum b)

/-- `Array.prototype.indexOf`: linear scan with strict equality, `-1` when
absent. -/
def indexOf (xs : List JSVal) (v : JSVal) : Int :=
  go xs 0
where
  go : List JSVal → Int → Int
  | [], _ => -1
  | x :: rest, i => if strictEq x v then i else go rest (i + 1)

/-- Models the `message = message || defaultMsg` idiom: `undefined` (here
`none`) and the empty string (the only falsy string) fall back to the
default. -/
def orDefault (message : Option String) (d : String) : String :=
  match message with
  | none => d
  | some m => if m = "" then d else m

/-- Property access for the two properties the source reads (`call` and
`apply`): on `null`/`undefined` it throws `TypeError`; a function value
inherits both from `Function.prototype` (themselves functions); primitives,
arrays and plain data have neither. -/
def getProp : JSVal → String → Except JSErr JSVal
  | .null, _ => .error .typeError
  | .undefined, _ => .error .typeError
  | .fnVal, p => if p == "call" || p == "apply" then .ok .fnVal else .ok .undefined
  | _, _ => .ok .undefined

/-- `function isCallable(fn) { return (fn.call !== undefined && fn.apply !== undefined); }`
(identical in both copies).  `&&` short-circuits, and each property access can
throw on `null`/`undefined`. -/
def isCallable (fn : JSVal) : Except JSErr Bool := do
  let c ← getProp fn "call"
  if strictEq c .undefined then
    pure false
  else
    let a ← getProp fn "apply"
    pure (!(strictEq a .undefined))

/-- `affirmCallable(callback, name)`: throws `TestifyException` when
`isCallable` returns false (identical in both copies). -/
def affirmCallable (callback : JSVal) (name : String) : Except JSErr Unit := do
  let ok ← isCallable callback
  if !ok then
    .error (.testifyException (name ++ "(): is not a valid callback function!"))
  else
    .ok ()

/-- One AssertionRecord as pushed by `recordTest` onto `item.tests`. -/
structure TestRec where
  name : String
  type : String
  result : String
  line : Nat
  file : String
  source : String
deriving DecidableEq, Repr

/-- One CaseResult: the per-case entry of `this.stack`.  Its `name` is the
`currentTestCase` key (which may still be `null`). -/
structure CaseResult where
  name : Option String
  tests : List TestRec
  pass : Nat
  fail : Nat
deriving DecidableEq, Repr

/-- `this.suiteResults`. -/
structure SuiteResults where
  pass : Nat
  fail : Nat
deriving DecidableEq, Repr

/-- A deep embedding of a test-case (or hook) body: callbacks in the claims
consist of calls to the assertion surface on the suite they receive.  Each
constructor mirrors one public assertion method. -/
inductive Cmd where
  | assert (arg : JSVal) (msg : Option String)
  | assertTrue (arg : JSVal) (msg : Option String)
  | assertFalse (arg : JSVal) (msg : Option String)
  | assertEquals (a b : JSVal) (msg : Option String)
  | assertNotEquals (a b : JSVal) (msg : Option String)
  | assertSame (a b : JSVal) (msg : Option String)
  | assertNotSame (a b : JSVal) (msg : Option String)
  | assertIdentical (a b : JSVal) (msg : Option String)
  | assertEqual (a b : JSVal) (msg : Option String)
  | assertInArray (arg : JSVal) (xs : List JSVal) (msg : Option String)
  | assertNotInArray (arg : JSVal) (xs : List JSVal) (msg : Option String)
  | pass (msg : Option String)
  | fail (msg : Option String)

/-- One registered TestCase entry of `this.tests`: name, body, and the
`pass`/`fail` counters that registration initialises to 0 (and that, per the
spec, the recorder never touches). -/
structure TestCaseEntry where
  name : String
  body : List Cmd
  pass : Nat
  fail : Nat

/-- The suite instance state set up by `function Constructor(title, isCLI)`.
`this.stack` is a string-keyed object whose insertion order is observable; it
is modelled as an insertion-ordered association list keyed by the (possibly
null) `currentTestCase`.  The vestigial `fileCache` and the user scratch
object `data` are never touched by any modelled operation and are omitted. -/
structure Suite where
  testIndex : Nat
  tests : List TestCaseEntry
  stack : List (Option String × CaseResult)
  currentTestCase : Option String
  suiteTitle : String
  suiteResults : SuiteResults
  beforeHook : Option (List Cmd)
  afterHook : Option (List Cmd)
  beforeEachHook : Option (List Cmd)
  afterEachHook : Option (List Cmd)
  isCLI : Bool

/-- `new Testify(title, isCLI)` (identical in both copies). -/
def Constructor (title : String) (isCLI : Bool) : Suite :=
  { testIndex := 0
    tests := []
    stack := []
    currentTestCase := none
    suiteTitle := title
    suiteResults := { pass := 0, fail := 0 }
    beforeHook := none
    afterHook := none
    beforeEachHook := none
    afterEachHook := none
    isCLI := isCLI }

/-- `this.stack[key]` lookup. -/
def stackFind : List (Option String × CaseResult) → Option String →
    Option CaseResult
  | [], _ => none
  | (k2, v) :: rest, k => if k2 = k then some v else stackFind rest k

/-- `this.stack[key] = v`: overwrite in place when the key exists (JS objects
keep the original insertion position), append otherwise. -/
def stackStore (stack : List (Option String × CaseResult)) (k : Option String)
    (v : CaseResult) : List (Option String × CaseResult) :=
  match stack with
  | [] => [(k, v)]
  | (k2, v2) :: rest =>
    if k2 = k then (k, v) :: rest else (k2, v2) :: stackStore rest k v

/-- Sum of `CaseResult.pass + CaseResult.fail` over all entries of the stack. -/
def stackSum : List (Option String × CaseResult) → Nat
  | [] => 0
  | (_, v) :: rest => v.pass + v.fail + stackSum rest

/-- `item = this.stack[this.currentTestCase]`, or, when absent, the fresh
CaseResult `recordTest` creates on first use
(`{name: this.currentTestCase, tests: [], pass: 0, fail: 0}`). -/
def caseItemOf (s : Suite) : CaseResult :=
  match stackFind s.stack s.currentTestCase with
  | some it => it
  | none => { name := s.currentTestCase, tests := [], pass := 0, fail := 0 }

/-- `item.tests.push(entry); item[result]++` from `recordTest`. -/
def pushRecord (it : CaseResult) (entry : TestRec) (pass : Bool) : CaseResult :=
  { it with
    tests := it.tests ++ [entry]
    pass := it.pass + (if pass then 1 else 0)
    fail := it.fail + (if pass then 0 else 1) }

/-- A value passed where the API expects a callback: either a function
(carrying its behaviour as commands) or some other JS value.  `toVal` is the
JS value the dynamic `isCallable` check sees.  (The claims only ever use
`invalid` with genuinely non-callable values.) -/
inductive CallbackArg where
  | valid (cs : List Cmd)
  | invalid (v : JSVal)

def CallbackArg.toVal : CallbackArg → JSVal
  | .valid _ => .fnVal
  | .invalid _v => _v

def CallbackArg.cmds : CallbackArg → List Cmd
  | .valid cs => cs
  | .invalid _ => []

namespace Testify

/-- `recordTest(pass, message)` from `src/unnamed/part_000`: default message
`'Testify.recordTest'`, `bt = ''`; lazily creates the CaseResult for the
current case, bumps `testIndex`, pushes the record, and increments the
matching per-case and suite-wide counter; returns `pass`. -/
def recordTest (s : Suite) (pass : Bool) (message : Option String) :
    Bool × Suite :=
  let message := orDefault message "Testify.recordTest"
  let result := if pass then "pass" else "fail"
  let newIndex := s.testIndex + 1
  let entry : TestRec :=
    { name := message, type := "", result := result, line := newIndex,
      file := "", source := "" }
  (pass,
    { s with
      testIndex := newIndex
      stack := stackStore s.stack s.currentTestCase
        (pushRecord (caseItemOf s) entry pass)
      suiteResults :=
        { pass := s.suiteResults.pass + (if pass then 1 else 0)
          fail := s.suiteResults.fail + (if pass then 0 else 1) } })

/-- `assertTrue(arg, message)`: records `arg == true`. -/
def assertTrue (s : Suite) (arg : JSVal) (message : Option String) :
    Bool × Suite :=
  recordTest s (looseEq arg (.bool true)) (some (orDefault message "Testify.assertTrue"))

/-- `assert(arg, message)` (part_000): defaults the message to
`'Testify.assert'` and delegates to `assertTrue`. -/
def assert (s : Suite) (arg : JSVal) (message : Option String) :
    Bool × Suite :=
  assertTrue s arg (some (orDefault message "Testify.assert"))

/-- `assertFalse(arg, message)`: records `arg == false`. -/
def assertFalse (s : Suite) (arg : JSVal) (message : Option String) :
    Bool × Suite :=
  recordTest s (looseEq arg (.bool false)) (some (orDefault message "Testify.assertFalse"))

/-- `assertEquals(arg1, arg2, message)`: records `arg1 == arg2`. -/
def assertEquals (s : Suite) (arg1 arg2 : JSVal) (message : Option String) :
    Bool × Suite :=
  recordTest s (looseEq arg1 arg2) (some (orDefault message "Testify.assertEquals"))

/-- `assertNotEquals(arg1, arg2, message)`: records `arg1 != arg2`. -/
def assertNotEquals (s : Suite) (arg1 arg2 : JSVal) (message : Option String) :
    Bool × Suite :=
  recordTest s (!(looseEq arg1 arg2)) (some (orDefault message "Testify.assertNotEquals"))

/-- `assertSame(arg1, arg2, message)`: records `arg1 === arg2`. -/
def assertSame (s : Suite) (arg1 arg2 : JSVal) (message : Option String) :
    Bool × Suite :=
  recordTest s (strictEq arg1 arg2) (some (orDefault message "Testify.assertSame"))

/-- `assertNotSame(arg1, arg2, message)`: records `arg1 !== arg2`. -/
def assertNotSame (s : Suite) (arg1 arg2 : JSVal) (message : Option String) :
    Bool × Suite :=
  recordTest s (!(strictEq arg1 arg2)) (some (orDefault message "Testify.assertNotSame"))

/-- `assertIdentical(arg1, arg2, message)`: deprecated alias recording
`arg1 === arg2` directly. -/
def assertIdentical (s : Suite) (arg1 arg2 : JSVal) (message : Option String) :
    Bool × Suite :=
  recordTest s (strictEq arg1 arg2) (some (orDefault message "Testify.assertIdentical"))

/-- `assertEqual(arg1, arg2, message)` (part_000): defaults the message to
`'Testify.assertEqual'` and delegates to `assertEquals`. -/
def assertEqual (s : Suite) (arg1 arg2 : JSVal) (message : Option String) :
    Bool × Suite :=
  assertEquals s arg1 arg2 (some (orDefault message "Testify.assertEqual"))

/-- `assertInArray(arg, arr, message)`: records `arr.indexOf(arg) > -1`. -/
def assertInArray (s : Suite) (arg : JSVal) (arr : List JSVal)
    (message : Option String) : Bool × Suite :=
  recordTest s (decide (indexOf arr arg > -1)) (some (orDefault message "Testify.assertInArray"))

/-- `assertNotInArray(arg, arr, message)`: records `!(arr.indexOf(arg) > -1)`. -/
def assertNotInArray (s : Suite) (arg : JSVal) (arr : List JSVal)
    (message : Option String) : Bool × Suite :=
  recordTest s (!(decide (indexOf arr arg > -1))) (some (orDefault message "Testify.assertNotInArray"))

/-- `pass(message)`: unconditional recorded pass. -/
def pass (s : Suite) (message : Option String) : Bool × Suite :=
  recordTest s true (some (orDefault message "Testify.pass"))

/-- `fail(message)`: unconditional recorded fail. -/
def fail (s : Suite) (message : Option String) : Bool × Suite :=
  recordTest s false (some (orDefault message "Testify.fail"))

/-- `report()`: both renderer includes are commented out in the source; the
method reads locals and returns `this`, leaving the state unchanged. -/
def report (s : Suite) : Suite := s

/-- `test(name, testCase)` (identical in both copies): when called with the
body first (`isCallable(name)`), a sequential default name
`"Test Case #<n>"` is generated (modelled by `name = none`); the body is
validated by `affirmCallable` and the entry appended with zeroed counters. -/
def test (s : Suite) (name : Option String) (testCase : CallbackArg) :
    Except JSErr Suite := do
  let caseName :=
    match name with
    | none => "Test Case #" ++ toString (s.tests.length + 1)
    | some n => n
  let _ ← affirmCallable testCase.toVal "test"
  .ok { s with
        tests := s.tests ++
          [{ name := caseName, body := testCase.cmds, pass := 0, fail := 0 }] }

/-- `before(callback)` (identical in both copies). -/
def before (s : Suite) (callback : CallbackArg) : Except JSErr Suite := do
  let _ ← affirmCallable callback.toVal "before"
  .ok { s with beforeHook := some callback.cmds }

/-- `after(callback)` (identical in both copies). -/
def after (s : Suite) (callback : CallbackArg) : Except JSErr Suite := do
  let _ ← affirmCallable callback.toVal "after"
  .ok { s with afterHook := some callback.cmds }

/-- `beforeEach(callback)` (identical in both copies). -/
def beforeEach (s : Suite) (callback : CallbackArg) : Except JSErr Suite := do
  let _ ← affirmCallable callback.toVal "beforeEach"
  .ok { s with beforeEachHook := some callback.cmds }

/-- `afterEach(callback)` (identical in both copies). -/
def afterEach (s : Suite) (callback : CallbackArg) : Except JSErr Suite := do
  let _ ← affirmCallable callback.toVal "afterEach"
  .ok { s with afterEachHook := some callback.cmds }

/-- Statement-level execution of one assertion call inside a callback body
(the callbacks run with the suite as receiver and sole argument; each call
delegates to this copy's methods and its boolean result is dropped at
statement level). -/
def execCmd (s : Suite) (c : Cmd) : Suite :=
  match c with
  | .assert a m => (assert s a m).2
  | .assertTrue a m => (assertTrue s a m).2
  | .assertFalse a m => (assertFalse s a m).2
  | .assertEquals a b m => (assertEquals s a b m).2
  | .assertNotEquals a b m => (assertNotEquals s a b m).2
  | .assertSame a b m => (assertSame s a b m).2
  | .assertNotSame a b m => (assertNotSame s a b m).2
  | .assertIdentical a b m => (assertIdentical s a b m).2
  | .assertEqual a b m => (assertEqual s a b m).2
  | .assertInArray a xs m => (assertInArray s a xs m).2
  | .assertNotInArray a xs m => (assertNotInArray s a xs m).2
  | .pass m => (pass s m).2
  | .fail m => (fail s m).2

/-- Run a callback body: its assertion calls in order. -/
def runCmds (s : Suite) (cs : List Cmd) : Suite :=
  cs.foldl execCmd s

/-- The `if (hook !== null && isCallable(hook)) { hook.apply(this, [this]) }`
pattern: a stored hook is a function, so the guard reduces to the null
test. -/
def applyHook (s : Suite) : Option (List Cmd) → Suite
  | some cs => runCmds s cs
  | none => s

/-- One iteration of `run`'s loop over `this.tests`: set `currentTestCase`,
run `beforeEach` if set, the body, then `afterEach` if set. -/
def runCase (s : Suite) (t : TestCaseEntry) : Suite :=
  let s0 := { s with currentTestCase := some t.name }
  let s1 := applyHook s0 s0.beforeEachHook
  let s2 := runCmds s1 t.body
  applyHook s2 s2.afterEachHook

/-- `run()` from `src/unnamed/part_000`: the before hook is guarded by
`this._before !== null && isCallable(this._before)` (short-circuit: with
`_before === null` the `isCallable` call never happens), then the loop over
the registered cases in order, the after hook, and `report()`.  The final
push onto the process-global `Constructor.instances` registry is outside the
suite state and not modelled; `run` returns `this`. -/
def run (s : Suite) : Suite :=
  let s1 := applyHook s s.beforeHook
  let s2 := s1.tests.foldl runCase s1
  let s3 := applyHook s2 s2.afterHook
  report s3

end Testify

/-- `isCallable` applied to a hook slot (`this._before` etc.), which holds
either `null` or a previously stored callback: on `null` the `fn.call`
property access throws `TypeError`; a stored callback is a function value and
is callable. -/
def isCallableOpt : Option (List Cmd) → Except JSErr Bool
  | none => .error .typeError
  | some _ => .ok true

namespace TestifyLib

/-- Modelled from the spec: `printStackTrace` is provided by the bundled
stack-trace helper library, which is not under `src/`; the spec (§1, §6)
calls the stack-trace/file-line machinery vestigial and its annotations
always empty, so the trace is modelled as the empty array. -/
def printStackTrace : List String := []

/-- `recordTest(pass, message)` from `src/lib/Testify/Testify.js`: identical
to the part_000 copy except that the default message is the empty string
(`message = message || ''`) and `bt` is `printStackTrace()` (its
`toString()` joins with commas). -/
def recordTest (s : Suite) (pass : Bool) (message : Option String) :
    Bool × Suite :=
  let message := orDefault message ""
  let bt := String.intercalate "," printStackTrace
  let result := if pass then "pass" else "fail"
  let newIndex := s.testIndex + 1
  let entry : TestRec :=
    { name := message, type := bt, result := result, line := newIndex,
      file := "", source := "" }
  (pass,
    { s with
      testIndex := newIndex
      stack := stackStore s.stack s.currentTestCase
        (pushRecord (caseItemOf s) entry pass)
      suiteResults :=
        { pass := s.suiteResults.pass + (if pass then 1 else 0)
          fail := s.suiteResults.fail + (if pass then 0 else 1) } })

/-- `assertTrue` (lib copy; same default message as part_000). -/
def assertTrue (s : Suite) (arg : JSVal) (message : Option String) :
    Bool × Suite :=
  recordTest s (looseEq arg (.bool true)) (some (orDefault message "Testify.assertTrue"))

/-- `assert` (lib copy): defaults the message to `''`, so `assertTrue`'s own
default takes over when no message is given. -/
def assert (s : Suite) (arg : JSVal) (message : Option String) :
    Bool × Suite :=
  assertTrue s arg (some (orDefault message ""))

/-- `assertFalse` (lib copy). -/
def assertFalse (s : Suite) (arg : JSVal) (message : Option String) :
    Bool × Suite :=
  recordTest s (looseEq arg (.bool false)) (some (orDefault message "Testify.assertFalse"))

/-- `assertEquals` (lib copy). -/
def assertEquals (s : Suite) (arg1 arg2 : JSVal) (message : Option String) :
    Bool × Suite :=
  recordTest s (looseEq arg1 arg2) (some (orDefault message "Testify.assertEquals"))

/-- `assertNotEquals` (lib copy). -/
def assertNotEquals (s : Suite) (arg1 arg2 : JSVal) (message : Option String) :
    Bool × Suite :=
  recordTest s (!(looseEq arg1 arg2)) (some (orDefault message "Testify.assertNotEquals"))

/-- `assertSame` (lib copy). -/
def assertSame (s : Suite) (arg1 arg2 : JSVal) (message : Option String) :
    Bool × Suite :=
  recordTest s (strictEq arg1 arg2) (some (orDefault message "Testify.assertSame"))

/-- `assertNotSame` (lib copy). -/
def assertNotSame (s : Suite) (arg1 arg2 : JSVal) (message : Option String) :
    Bool × Suite :=
  recordTest s (!(strictEq arg1 arg2)) (some (orDefault message "Testify.assertNotSame"))

/-- `assertIdentical` (lib copy). -/
def assertIdentical (s : Suite) (arg1 arg2 : JSVal) (message : Option String) :
    Bool × Suite :=
  recordTest s (strictEq arg1 arg2) (some (orDefault message "Testify.assertIdentical"))

/-- `assertEqual` (lib copy): defaults the message to `''`, so
`assertEquals`'s own default takes over. -/
def assertEqual (s : Suite) (arg1 arg2 : JSVal) (message : Option String) :
    Bool × Suite :=
  assertEquals s arg1 arg2 (some (orDefault message ""))

/-- `assertInArray` (lib copy). -/
def assertInArray (s : Suite) (arg : JSVal) (arr : List JSVal)
    (message : Option String) : Bool × Suite :=
  recordTest s (decide (indexOf arr arg > -1)) (some (orDefault message "Testify.assertInArray"))

/-- `assertNotInArray` (lib copy). -/
def assertNotInArray (s : Suite) (arg : JSVal) (arr : List JSVal)
    (message : Option String) : Bool × Suite :=
  recordTest s (!(decide (indexOf arr arg > -1))) (some (orDefault message "Testify.assertNotInArray"))

/-- `pass` (lib copy). -/
def pass (s : Suite) (message : Option String) : Bool × Suite :=
  recordTest s true (some (orDefault message "Testify.pass"))

/-- `fail` (lib copy). -/
def fail (s : Suite) (message : Option String) : Bool × Suite :=
  recordTest s false (some (orDefault message "Testify.fail"))

/-- `report()` (lib copy): state unchanged. -/
def report (s : Suite) : Suite := s

/-- Statement-level execution of one assertion call, via the lib copy's
methods. -/
def execCmd (s : Suite) (c : Cmd) : Suite :=
  match c with
  | .assert a m => (assert s a m).2
  | .assertTrue a m => (assertTrue s a m).2
  | .assertFalse a m => (assertFalse s a m).2
  | .assertEquals a b m => (assertEquals s a b m).2
  | .assertNotEquals a b m => (assertNotEquals s a b m).2
  | .assertSame a b m => (assertSame s a b m).2
  | .assertNotSame a b m => (assertNotSame s a b m).2
  | .assertIdentical a b m => (assertIdentical s a b m).2
  | .assertEqual a b m => (assertEqual s a b m).2
  | .assertInArray a xs m => (assertInArray s a xs m).2
  | .assertNotInArray a xs m => (assertNotInArray s a xs m).2
  | .pass m => (pass s m).2
  | .fail m => (fail s m).2

/-- Run a callback body (lib copy). -/
def runCmds (s : Suite) (cs : List Cmd) : Suite :=
  cs.foldl execCmd s

/-- The null-guarded hook application pattern (lib copy). -/
def applyHook (s : Suite) : Option (List Cmd) → Suite
  | some cs => runCmds s cs
  | none => s

/-- One iteration of `run`'s loop (lib copy; the `beforeEach`/`afterEach`
guards are identical to part_000's). -/
def runCase (s : Suite) (t : TestCaseEntry) : Suite :=
  let s0 := { s with currentTestCase := some t.name }
  let s1 := applyHook s0 s0.beforeEachHook
  let s2 := runCmds s1 t.body
  applyHook s2 s2.afterEachHook

/-- `run()` from `src/lib/Testify/Testify.js`: unlike part_000, the before
hook is guarded by `if (isCallable(this._before))` with no preceding null
test, so with `_before === null` the property access `null.call` inside
`isCallable` throws `TypeError` and `run` aborts; the rest (case loop, after
hook, `report()`) matches part_000, and there is no global registry push. -/
def run (s : Suite) : Except JSErr Suite := do
  let c ← isCallableOpt s.beforeHook
  let s1 := if c then runCmds s (s.beforeHook.getD []) else s
  let s2 := s1.tests.foldl runCase s1
  let s3 := applyHook s2 s2.afterHook
  .ok (report s3)

end TestifyLib

/-- A client operation on a suite, as used before and during a run: register
a case, set a hook, call an assertion method directly, or call `run()`.
Registrations carry genuine callbacks (`CallbackArg.valid`). -/
inductive Op where
  | test (name : Option String) (body : List Cmd)
  | before (cs : List Cmd)
  | after (cs : List Cmd)
  | beforeEach (cs : List Cmd)
  | afterEach (cs : List Cmd)
  | call (c : Cmd)
  | run

/-- Unwrap a registration result; with a `CallbackArg.valid` argument
`affirmCallable` succeeds, so the `error` fallback is unreachable for the
operations of `Op`. -/
def orOk (s : Suite) : Except JSErr Suite → Suite
  | .ok s2 => s2
  | .error _ => s

/-- Apply one client operation (part_000 copy). -/
def applyOp (s : Suite) : Op → Suite
  | .test n cs => orOk s (Testify.test s n (.valid cs))
  | .before cs => orOk s (Testify.before s (.valid cs))
  | .after cs => orOk s (Testify.after s (.valid cs))
  | .beforeEach cs => orOk s (Testify.beforeEach s (.valid cs))
  | .afterEach cs => orOk s (Testify.afterEach s (.valid cs))
  | .call c => Testify.execCmd s c
  | .run => Testify.run s

/-- Apply a sequence of client operations. -/
def applyOps (s : Suite) (ops : List Op) : Suite :=
  ops.foldl applyOp s

/-- Number of commands a hook slot contributes when it runs. -/
def hookCount : Option (List Cmd) → Nat
  | none => 0
  | some cs => cs.length

/-- Number of assertion calls `run()` performs from state `s`: the before
hook, then per registered case its beforeEach, body and afterEach, then the
after hook (every `Cmd` is exactly one call into `recordTest`). -/
def runAsserts (s : Suite) : Nat :=
  hookCount s.beforeHook +
    (s.tests.map
        (fun t => hookCount s.beforeEachHook + t.body.length +
          hookCount s.afterEachHook)).sum +
    hookCount s.afterHook

/-- Number of assertion calls an operation performs from state `s`. -/
def opAsserts (s : Suite) : Op → Nat
  | .call _ => 1
  | .run => runAsserts s
  | _ => 0

/-- The message (`name` field) of the most recently pushed record of the
current case, if any. -/
def lastName (s : Suite) : Option String :=
  (stackFind s.stack s.currentTestCase).bind
    (fun it => it.tests.getLast?.map (fun r => r.name))

/-- The outcome tag of the most recently pushed record of the current case. -/
def lastResult (s : Suite) : Option String :=
  (stackFind s.stack s.currentTestCase).bind
    (fun it => it.tests.getLast?.map (fun r => r.result))

/-- The sequence index of the most recently pushed record of the current
case. -/
def lastLine (s : Suite) : Option Nat :=
  (stackFind s.stack s.currentTestCase).bind
    (fun it => it.tests.getLast?.map (fun r => r.line))

/-- The message-independent content of one assertion record: its outcome tag
and sequence index. -/
def obsRec (r : TestRec) : String × Nat :=
  (r.result, r.line)

/-- The message-independent content of one CaseResult. -/
def obsCase (c : CaseResult) : Option String × (List (String × Nat) × (Nat × Nat)) :=
  (c.name, (c.tests.map obsRec, (c.pass, c.fail)))

/-- The message-independent content of the stack. -/
def obsStack (st : List (Option String × CaseResult)) :
    List (Option String × (Option String × (List (String × Nat) × (Nat × Nat)))) :=
  st.map (fun p => (p.1, obsCase p.2))

/-- Two suite states correspond when they agree on everything except the
message and trace strings stored inside assertion records: same counters,
same sequence indices and outcome tags in the same order under the same case
keys, same registrations, hooks, title and mode. -/
structure Corresponds (a b : Suite) : Prop where
  testIndexEq : a.testIndex = b.testIndex
  resultsEq : a.suiteResults = b.suiteResults
  stackEq : obsStack a.stack = obsStack b.stack
  currentEq : a.currentTestCase = b.currentTestCase
  titleEq : a.suiteTitle = b.suiteTitle
  testsEq : a.tests = b.tests
  beforeEq : a.beforeHook = b.beforeHook
  afterEq : a.afterHook = b.afterHook
  beforeEachEq : a.beforeEachHook = b.beforeEachHook
  afterEachEq : a.afterEachHook = b.afterEachHook
  isCLIEq : a.isCLI = b.isCLI

/-- `f` records a pass from every suite state: it returns `true`, increments
the suite-wide pass counter, leaves the fail counter alone, and the record it
pushes for the current case carries the outcome tag `"pass"`. -/
def RecordsPass (f : Suite → Bool × Suite) : Prop :=
  ∀ s : Suite,
    (f s).1 = true ∧
    (f s).2.suiteResults.pass = s.suiteResults.pass + 1 ∧
    (f s).2.suiteResults.fail = s.suiteResults.fail ∧
    lastResult (f s).2 = some "pass"

/-- `f` records a fail from every suite state: it returns `false`, increments
the suite-wide fail counter, leaves the pass counter alone, and the record it
pushes carries the outcome tag `"fail"`. -/
def RecordsFail (f : Suite → Bool × Suite) : Prop :=
  ∀ s : Suite,
    (f s).1 = false ∧
    (f s).2.suiteResults.pass = s.suiteResults.pass ∧
    (f s).2.suiteResults.fail = s.suiteResults.fail + 1 ∧
    lastResult (f s).2 = some "fail"

/-! ### Basic lemmas about the stack map and the recorder -/

theorem stackFind_stackStore_self (st : List (Option String × CaseResult))
    (k : Option String) (v : CaseResult) :
    stackFind (stackStore st k v) k = some v := by
  induction st with
  | nil => simp [stackStore, stackFind]
  | cons hd tl ih =>
    obtain ⟨k2, v2⟩ := hd
    by_cases h : k2 = k
    · simp [stackStore, h, stackFind]
    · simp [stackStore, h, stackFind, ih]

theorem stackFind_stackStore_ne (st : List (Option String × CaseResult))
    (k k' : Option String) (v : CaseResult) (h : k' ≠ k) :
    stackFind (stackStore st k v) k' = stackFind st k' := by
  induction st with
  | nil => simp [stackStore, stackFind, Ne.symm h]
  | cons hd tl ih =>
    obtain ⟨k2, v2⟩ := hd
    by_cases hk : k2 = k
    · subst hk
      simp [stackStore, stackFind, Ne.symm h]
    · simp [stackStore, hk, stackFind, ih]

/-- The `pass + fail` contribution of one (possibly absent) CaseResult. -/
def weightOf : Option CaseResult → Nat
  | some it => it.pass + it.fail
  | none => 0

/-- Storing a value under a key replaces that key's contribution to the stack
total: the old contribution (`0` when the key is new) plus the new total
equals the old total plus the new value's contribution. -/
theorem stackSum_store_add (st : List (Option String × CaseResult))
    (k : Option String) (v : CaseResult) :
    stackSum (stackStore st k v) + weightOf (stackFind st k)
      = stackSum st + (v.pass + v.fail) := by
  induction st with
  | nil => simp [stackStore, stackFind, stackSum, weightOf]
  | cons hd tl ih =>
    obtain ⟨k2, v2⟩ := hd
    by_cases hk : k2 = k
    · subst hk
      simp [stackStore, stackFind, stackSum, weightOf]
      omega
    · simp only [stackStore, stackFind, stackSum, if_neg hk]
      omega

/-- Recording into the current case's slot grows the stack total by exactly
one, whatever the pushed entry is. -/
theorem stackSum_store_caseItem (s : Suite) (e : TestRec) (p : Bool) :
    stackSum (stackStore s.stack s.currentTestCase
        (pushRecord (caseItemOf s) e p))
      = stackSum s.stack + 1 := by
  have h := stackSum_store_add s.stack s.currentTestCase
    (pushRecord (caseItemOf s) e p)
  cases hfind : stackFind s.stack s.currentTestCase with
  | none =>
    rw [hfind] at h
    cases p <;> simp [pushRecord, caseItemOf, hfind, weightOf] at h ⊢ <;> omega
  | some it =>
    rw [hfind] at h
    cases p <;> simp [pushRecord, caseItemOf, hfind, weightOf] at h ⊢ <;> omega

theorem Testify.recordTest_lastResult (s : Suite) (p : Bool) (m : Option String) :
    lastResult (Testify.recordTest s p m).2 = some (if p then "pass" else "fail") := by
  simp [lastResult, Testify.recordTest, pushRecord, stackFind_stackStore_self]

theorem Testify.recordTest_lastLine (s : Suite) (p : Bool) (m : Option String) :
    lastLine (Testify.recordTest s p m).2 = some (s.testIndex + 1) := by
  simp [lastLine, Testify.recordTest, pushRecord, stackFind_stackStore_self]

theorem recordsPass_recordTest (m : Option String) :
    RecordsPass (fun s => Testify.recordTest s true m) := by
  intro s
  refine ⟨rfl, rfl, rfl, ?_⟩
  simpa using Testify.recordTest_lastResult s true m

theorem recordsFail_recordTest (m : Option String) :
    RecordsFail (fun s => Testify.recordTest s false m) := by
  intro s
  refine ⟨rfl, rfl, rfl, ?_⟩
  simpa using Testify.recordTest_lastResult s false m


/-! ### Counting machinery: every recorded assertion advances the suite's
three counters (`testIndex`, suite totals, per-case stack totals) by exactly
one, and everything else is left in place. -/

/-- `s2` is reached from `s` by exactly `n` calls into `recordTest`:
`testIndex`, the suite-wide total, and the stack total each advance by `n`,
while the registration list and the four hooks are untouched. -/
structure StepsN (s : Suite) (n : Nat) (s2 : Suite) : Prop where
  testIndexEq : s2.testIndex = s.testIndex + n
  resultsEq : s2.suiteResults.pass + s2.suiteResults.fail
    = s.suiteResults.pass + s.suiteResults.fail + n
  stackSumEq : stackSum s2.stack = stackSum s.stack + n
  testsEq : s2.tests = s.tests
  beforeEq : s2.beforeHook = s.beforeHook
  afterEq : s2.afterHook = s.afterHook
  beforeEachEq : s2.beforeEachHook = s.beforeEachHook
  afterEachEq : s2.afterEachHook = s.afterEachHook

theorem StepsN.trans {s s2 s3 : Suite} {n k : Nat}
    (h1 : StepsN s n s2) (h2 : StepsN s2 k s3) : StepsN s (n + k) s3 where
  testIndexEq := by rw [h2.testIndexEq, h1.testIndexEq, Nat.add_assoc]
  resultsEq := by rw [h2.resultsEq, h1.resultsEq, Nat.add_assoc]
  stackSumEq := by rw [h2.stackSumEq, h1.stackSumEq, Nat.add_assoc]
  testsEq := h2.testsEq.trans h1.testsEq
  beforeEq := h2.beforeEq.trans h1.beforeEq
  afterEq := h2.afterEq.trans h1.afterEq
  beforeEachEq := h2.beforeEachEq.trans h1.beforeEachEq
  afterEachEq := h2.afterEachEq.trans h1.afterEachEq

theorem StepsN.of_eq {s s2 : Suite} {n k : Nat}
    (h : StepsN s n s2) (e : n = k) : StepsN s k s2 := by
  subst e; exact h

theorem stepsN_refl (s : Suite) : StepsN s 0 s where
  testIndexEq := rfl
  resultsEq := rfl
  stackSumEq := rfl
  testsEq := rfl
  beforeEq := rfl
  afterEq := rfl
  beforeEachEq := rfl
  afterEachEq := rfl

theorem Testify.recordTest_stepsN (s : Suite) (p : Bool) (m : Option String) :
    StepsN s 1 (Testify.recordTest s p m).2 where
  testIndexEq := rfl
  resultsEq := by cases p <;> simp [Testify.recordTest] <;> omega
  stackSumEq := by
    show stackSum (Suite.stack (Testify.recordTest s p m).2)
      = stackSum s.stack + 1
    exact stackSum_store_caseItem s _ p
  testsEq := rfl
  beforeEq := rfl
  afterEq := rfl
  beforeEachEq := rfl
  afterEachEq := rfl

theorem Testify.execCmd_stepsN (s : Suite) (c : Cmd) :
    StepsN s 1 (Testify.execCmd s c) := by
  cases c <;> exact Testify.recordTest_stepsN _ _ _

theorem Testify.runCmds_stepsN (s : Suite) (cs : List Cmd) :
    StepsN s cs.length (Testify.runCmds s cs) := by
  induction cs generalizing s with
  | nil => exact stepsN_refl s
  | cons c cs ih =>
    have h := (Testify.execCmd_stepsN s c).trans (ih (Testify.execCmd s c))
    exact h.of_eq (by simp [List.length_cons]; omega)

theorem Testify.applyHook_stepsN (s : Suite) (h : Option (List Cmd)) :
    StepsN s (hookCount h) (Testify.applyHook s h) := by
  cases h with
  | none => exact stepsN_refl s
  | some cs => exact Testify.runCmds_stepsN s cs

theorem Testify.runCase_stepsN (s : Suite) (t : TestCaseEntry) :
    StepsN s
      (hookCount s.beforeEachHook + t.body.length + hookCount s.afterEachHook)
      (Testify.runCase s t) := by
  have h0 : StepsN s 0 { s with currentTestCase := some t.name } :=
    { testIndexEq := rfl, resultsEq := rfl, stackSumEq := rfl, testsEq := rfl,
      beforeEq := rfl, afterEq := rfl, beforeEachEq := rfl, afterEachEq := rfl }
  have h1 : StepsN { s with currentTestCase := some t.name }
      (hookCount s.beforeEachHook)
      (Testify.applyHook { s with currentTestCase := some t.name }
        (Suite.beforeEachHook { s with currentTestCase := some t.name })) :=
    Testify.applyHook_stepsN { s with currentTestCase := some t.name }
      (Suite.beforeEachHook { s with currentTestCase := some t.name })
  have h2 := Testify.runCmds_stepsN
    (Testify.applyHook { s with currentTestCase := some t.name }
      (Suite.beforeEachHook { s with currentTestCase := some t.name }))
    t.body
  have hae : Suite.afterEachHook
      (Testify.runCmds
        (Testify.applyHook { s with currentTestCase := some t.name }
          (Suite.beforeEachHook { s with currentTestCase := some t.name }))
        t.body)
      = s.afterEachHook := by
    rw [h2.afterEachEq, h1.afterEachEq]
  have h3 : StepsN
      (Testify.runCmds
        (Testify.applyHook { s with currentTestCase := some t.name }
          (Suite.beforeEachHook { s with currentTestCase := some t.name }))
        t.body)
      (hookCount s.afterEachHook)
      (Testify.applyHook
        (Testify.runCmds
          (Testify.applyHook { s with currentTestCase := some t.name }
            (Suite.beforeEachHook { s with currentTestCase := some t.name }))
          t.body)
        (Suite.afterEachHook
          (Testify.runCmds
            (Testify.applyHook { s with currentTestCase := some t.name }
              (Suite.beforeEachHook { s with currentTestCase := some t.name }))
            t.body))) := by
    have h := Testify.applyHook_stepsN
      (Testify.runCmds
        (Testify.applyHook { s with currentTestCase := some t.name }
          (Suite.beforeEachHook { s with currentTestCase := some t.name }))
        t.body)
      (Suite.afterEachHook
        (Testify.runCmds
          (Testify.applyHook { s with currentTestCase := some t.name }
            (Suite.beforeEachHook { s with currentTestCase := some t.name }))
          t.body))
    exact h.of_eq (by rw [hae])
  have total := ((h0.trans h1).trans h2).trans h3
  exact total.of_eq (by omega)

theorem Testify.foldl_runCase_stepsN (ts : List TestCaseEntry) (s : Suite) :
    StepsN s
      ((ts.map (fun t =>
        hookCount s.beforeEachHook + t.body.length + hookCount s.afterEachHook)).sum)
      (ts.foldl Testify.runCase s) := by
  induction ts generalizing s with
  | nil => exact stepsN_refl s
  | cons t ts ih =>
    have h1 := Testify.runCase_stepsN s t
    have h2 : StepsN (Testify.runCase s t)
        ((ts.map (fun t2 =>
          hookCount s.beforeEachHook + t2.body.length +
            hookCount s.afterEachHook)).sum)
        (ts.foldl Testify.runCase (Testify.runCase s t)) :=
      (ih (Testify.runCase s t)).of_eq
        (by simp only [h1.beforeEachEq, h1.afterEachEq])
    have total := h1.trans h2
    exact total.of_eq (by simp [List.map_cons, List.sum_cons])

theorem Testify.run_stepsN (s : Suite) :
    StepsN s (runAsserts s) (Testify.run s) := by
  have h1 := Testify.applyHook_stepsN s s.beforeHook
  have h2 : StepsN (Testify.applyHook s s.beforeHook)
      ((s.tests.map (fun t =>
        hookCount s.beforeEachHook + t.body.length +
          hookCount s.afterEachHook)).sum)
      ((Suite.tests (Testify.applyHook s s.beforeHook)).foldl Testify.runCase
        (Testify.applyHook s s.beforeHook)) :=
    (Testify.foldl_runCase_stepsN
        (Suite.tests (Testify.applyHook s s.beforeHook))
        (Testify.applyHook s s.beforeHook)).of_eq
      (by rw [h1.testsEq, h1.beforeEachEq, h1.afterEachEq])
  have h12 := h1.trans h2
  have h3 : StepsN
      ((Suite.tests (Testify.applyHook s s.beforeHook)).foldl Testify.runCase
        (Testify.applyHook s s.beforeHook))
      (hookCount s.afterHook)
      (Testify.applyHook
        ((Suite.tests (Testify.applyHook s s.beforeHook)).foldl Testify.runCase
          (Testify.applyHook s s.beforeHook))
        (Suite.afterHook
          ((Suite.tests (Testify.applyHook s s.beforeHook)).foldl
            Testify.runCase (Testify.applyHook s s.beforeHook)))) :=
    (Testify.applyHook_stepsN
        ((Suite.tests (Testify.applyHook s s.beforeHook)).foldl Testify.runCase
          (Testify.applyHook s s.beforeHook))
        (Suite.afterHook
          ((Suite.tests (Testify.applyHook s s.beforeHook)).foldl
            Testify.runCase (Testify.applyHook s s.beforeHook)))).of_eq
      (by rw [h2.afterEq, h1.afterEq])
  exact (h12.trans h3).of_eq rfl

/-- Apply a sequence of client operations while counting, from the outside,
how many assertion calls each operation makes (one per `Cmd` executed). -/
def applyOpsCount (p : Suite × Nat) (ops : List Op) : Suite × Nat :=
  ops.foldl (fun q op => (applyOp q.1 op, q.2 + opAsserts q.1 op)) p

theorem applyOp_testIndex (s : Suite) (op : Op) :
    (applyOp s op).testIndex = s.testIndex + opAsserts s op := by
  cases op with
  | test n cs => cases n <;> rfl
  | before cs => rfl
  | after cs => rfl
  | beforeEach cs => rfl
  | afterEach cs => rfl
  | call c => exact (Testify.execCmd_stepsN s c).testIndexEq
  | run => exact (Testify.run_stepsN s).testIndexEq

theorem applyOp_inv (s : Suite) (op : Op)
    (h1 : stackSum s.stack = s.suiteResults.pass + s.suiteResults.fail)
    (h2 : s.suiteResults.pass + s.suiteResults.fail = s.testIndex) :
    stackSum (applyOp s op).stack
        = (applyOp s op).suiteResults.pass + (applyOp s op).suiteResults.fail ∧
      (applyOp s op).suiteResults.pass + (applyOp s op).suiteResults.fail
        = (applyOp s op).testIndex := by
  cases op with
  | test n cs => cases n <;> exact ⟨h1, h2⟩
  | before cs => exact ⟨h1, h2⟩
  | after cs => exact ⟨h1, h2⟩
  | beforeEach cs => exact ⟨h1, h2⟩
  | afterEach cs => exact ⟨h1, h2⟩
  | call c =>
    have hs := Testify.execCmd_stepsN s c
    exact ⟨by simp only [applyOp]; rw [hs.stackSumEq, hs.resultsEq, h1],
           by simp only [applyOp]; rw [hs.resultsEq, hs.testIndexEq, h2]⟩
  | run =>
    have hs := Testify.run_stepsN s
    exact ⟨by simp only [applyOp]; rw [hs.stackSumEq, hs.resultsEq, h1],
           by simp only [applyOp]; rw [hs.resultsEq, hs.testIndexEq, h2]⟩

theorem applyOpsCount_inv (ops : List Op) (s : Suite) (c : Nat)
    (h1 : stackSum s.stack = s.suiteResults.pass + s.suiteResults.fail)
    (h2 : s.suiteResults.pass + s.suiteResults.fail = s.testIndex)
    (h3 : s.testIndex = c) :
    stackSum (applyOpsCount (s, c) ops).1.stack
        = (applyOpsCount (s, c) ops).1.suiteResults.pass +
            (applyOpsCount (s, c) ops).1.suiteResults.fail ∧
      (applyOpsCount (s, c) ops).1.suiteResults.pass +
          (applyOpsCount (s, c) ops).1.suiteResults.fail
        = (applyOpsCount (s, c) ops).2 := by
  induction ops generalizing s c with
  | nil => exact ⟨h1, h2.trans h3⟩
  | cons op ops ih =>
    have hstep := applyOp_inv s op h1 h2
    have hidx := applyOp_testIndex s op
    exact ih (applyOp s op) (c + opAsserts s op) hstep.1 hstep.2
      (by rw [hidx, h3])

/-! ### Correspondence between the two copies: same state up to the recorded
message/trace strings. -/

theorem corresponds_refl (s : Suite) : Corresponds s s :=
  ⟨rfl, rfl, rfl, rfl, rfl, rfl, rfl, rfl, rfl, rfl, rfl⟩

theorem obsStack_find (st1 st2 : List (Option String × CaseResult))
    (h : obsStack st1 = obsStack st2) (k : Option String) :
    Option.map obsCase (stackFind st1 k)
      = Option.map obsCase (stackFind st2 k) := by
  induction st1 generalizing st2 with
  | nil =>
    cases st2 with
    | nil => rfl
    | cons b bs => simp [obsStack] at h
  | cons a as ih =>
    cases st2 with
    | nil => simp [obsStack] at h
    | cons b bs =>
      obtain ⟨k1, v1⟩ := a
      obtain ⟨k2, v2⟩ := b
      simp only [obsStack, List.map_cons, List.cons.injEq, Prod.mk.injEq] at h
      obtain ⟨⟨hk, hv⟩, hrest⟩ := h
      subst hk
      by_cases hkk : k1 = k
      · simp [stackFind, hkk, hv]
      · simp only [stackFind, if_neg hkk]
        exact ih bs hrest

theorem obsStack_store (st1 st2 : List (Option String × CaseResult))
    (h : obsStack st1 = obsStack st2) (k : Option String) (v1 v2 : CaseResult)
    (hv : obsCase v1 = obsCase v2) :
    obsStack (stackStore st1 k v1) = obsStack (stackStore st2 k v2) := by
  induction st1 generalizing st2 with
  | nil =>
    cases st2 with
    | nil => simp [stackStore, obsStack, hv]
    | cons b bs => simp [obsStack] at h
  | cons a as ih =>
    cases st2 with
    | nil => simp [obsStack] at h
    | cons b bs =>
      obtain ⟨k1, w1⟩ := a
      obtain ⟨k2, w2⟩ := b
      simp only [obsStack, List.map_cons, List.cons.injEq, Prod.mk.injEq] at h
      obtain ⟨⟨hk, hw⟩, hrest⟩ := h
      subst hk
      by_cases hkk : k1 = k
      · simp [stackStore, hkk, obsStack, hv, hrest, hw]
      · have htail := ih bs hrest
        simp only [stackStore, if_neg hkk, obsStack, List.map_cons]
        simp [hw]
        exact htail

/-- The two copies' `recordTest`s, fed the same outcome (and any messages),
produce corresponding states and both return the outcome. -/
theorem recordTest_corresponds (a b : Suite) (h : Corresponds a b)
    (p : Bool) (m1 m2 : Option String) :
    Corresponds (Testify.recordTest a p m1).2 (TestifyLib.recordTest b p m2).2 := by
  have hfind := obsStack_find a.stack b.stack h.stackEq a.currentTestCase
  have hitem : obsCase (caseItemOf a) = obsCase (caseItemOf b) := by
    unfold caseItemOf
    rw [← h.currentEq]
    cases hA : stackFind a.stack a.currentTestCase with
    | none =>
      rw [hA] at hfind
      cases hB : stackFind b.stack a.currentTestCase with
      | none => simp [obsCase, h.currentEq]
      | some itB => rw [hB] at hfind; simp at hfind
    | some itA =>
      rw [hA] at hfind
      cases hB : stackFind b.stack a.currentTestCase with
      | none => rw [hB] at hfind; simp at hfind
      | some itB => rw [hB] at hfind; simpa using hfind
  have hi := hitem
  simp only [obsCase, Prod.mk.injEq] at hi
  refine
    { testIndexEq := ?_, resultsEq := ?_, stackEq := ?_,
      currentEq := h.currentEq, titleEq := h.titleEq, testsEq := h.testsEq,
      beforeEq := h.beforeEq, afterEq := h.afterEq,
      beforeEachEq := h.beforeEachEq, afterEachEq := h.afterEachEq,
      isCLIEq := h.isCLIEq }
  · show a.testIndex + 1 = b.testIndex + 1
    rw [h.testIndexEq]
  · show ({ pass := a.suiteResults.pass + (if p then 1 else 0),
            fail := a.suiteResults.fail + (if p then 0 else 1) } : SuiteResults)
        = { pass := b.suiteResults.pass + (if p then 1 else 0),
            fail := b.suiteResults.fail + (if p then 0 else 1) }
    rw [h.resultsEq]
  · show obsStack (stackStore a.stack a.currentTestCase
        (pushRecord (caseItemOf a)
          { name := orDefault m1 "Testify.recordTest", type := "",
            result := if p then "pass" else "fail", line := a.testIndex + 1,
            file := "", source := "" } p))
      = obsStack (stackStore b.stack b.currentTestCase
        (pushRecord (caseItemOf b)
          { name := orDefault m2 "",
            type := String.intercalate "," TestifyLib.printStackTrace,
            result := if p then "pass" else "fail", line := b.testIndex + 1,
            file := "", source := "" } p))
    rw [← h.currentEq]
    refine obsStack_store a.stack b.stack h.stackEq a.currentTestCase _ _ ?_
    simp [obsCase, pushRecord, obsRec, hi.1, hi.2.1, hi.2.2.1, hi.2.2.2,
      h.testIndexEq]

/-- Each assertion method of the two copies preserves correspondence (the
predicates are shared, so both record the same outcome). -/
theorem execCmd_corresponds (a b : Suite) (h : Corresponds a b) (c : Cmd) :
    Corresponds (Testify.execCmd a c) (TestifyLib.execCmd b c) := by
  cases c <;> exact recordTest_corresponds a b h _ _ _

theorem runCmds_corresponds (cs : List Cmd) (a b : Suite) (h : Corresponds a b) :
    Corresponds (Testify.runCmds a cs) (TestifyLib.runCmds b cs) := by
  induction cs generalizing a b with
  | nil => exact h
  | cons c cs ih => exact ih _ _ (execCmd_corresponds a b h c)

theorem applyHook_corresponds (o1 o2 : Option (List Cmd)) (e : o1 = o2)
    (a b : Suite) (h : Corresponds a b) :
    Corresponds (Testify.applyHook a o1) (TestifyLib.applyHook b o2) := by
  subst e
  cases o1 with
  | none => exact h
  | some cs => exact runCmds_corresponds cs a b h

theorem runCase_corresponds (a b : Suite) (h : Corresponds a b)
    (t : TestCaseEntry) :
    Corresponds (Testify.runCase a t) (TestifyLib.runCase b t) := by
  have h0 : Corresponds { a with currentTestCase := some t.name }
      { b with currentTestCase := some t.name } :=
    { testIndexEq := h.testIndexEq, resultsEq := h.resultsEq,
      stackEq := h.stackEq, currentEq := rfl, titleEq := h.titleEq,
      testsEq := h.testsEq, beforeEq := h.beforeEq, afterEq := h.afterEq,
      beforeEachEq := h.beforeEachEq, afterEachEq := h.afterEachEq,
      isCLIEq := h.isCLIEq }
  have h1 := applyHook_corresponds
    (Suite.beforeEachHook { a with currentTestCase := some t.name })
    (Suite.beforeEachHook { b with currentTestCase := some t.name })
    h0.beforeEachEq _ _ h0
  have h2 := runCmds_corresponds t.body _ _ h1
  exact applyHook_corresponds _ _ h2.afterEachEq _ _ h2

theorem foldl_runCase_corresponds (ts1 ts2 : List TestCaseEntry)
    (e : ts1 = ts2) (a b : Suite) (h : Corresponds a b) :
    Corresponds (ts1.foldl Testify.runCase a) (ts2.foldl TestifyLib.runCase b) := by
  subst e
  induction ts1 generalizing a b with
  | nil => exact h
  | cons t ts ih => exact ih _ _ (runCase_corresponds a b h t)

/-- With a before hook set, the lib copy's `run` succeeds and lands in a state
corresponding to the part_000 copy's `run`. -/
theorem run_corresponds (s : Suite) (cs : List Cmd)
    (hb : s.beforeHook = some cs) :
    ∃ s2, TestifyLib.run s = .ok s2 ∧ Corresponds (Testify.run s) s2 := by
  have h1 : Corresponds (Testify.runCmds s cs) (TestifyLib.runCmds s cs) :=
    runCmds_corresponds cs s s (corresponds_refl s)
  have h2 := foldl_runCase_corresponds
    (Suite.tests (Testify.runCmds s cs)) (Suite.tests (TestifyLib.runCmds s cs))
    h1.testsEq _ _ h1
  have h3 := applyHook_corresponds _ _ h2.afterEq _ _ h2
  refine ⟨TestifyLib.applyHook
      ((Suite.tests (TestifyLib.runCmds s cs)).foldl TestifyLib.runCase
        (TestifyLib.runCmds s cs))
      (Suite.afterHook
        ((Suite.tests (TestifyLib.runCmds s cs)).foldl TestifyLib.runCase
          (TestifyLib.runCmds s cs))), ?_, ?_⟩
  · unfold TestifyLib.run
    rw [hb]
    rfl
  · have e1 : Testify.applyHook s s.beforeHook = Testify.runCmds s cs := by
      rw [hb]
      rfl
    show Corresponds
      (Testify.applyHook
        ((Suite.tests (Testify.applyHook s s.beforeHook)).foldl Testify.runCase
          (Testify.applyHook s s.beforeHook))
        (Suite.afterHook
          ((Suite.tests (Testify.applyHook s s.beforeHook)).foldl
            Testify.runCase (Testify.applyHook s s.beforeHook))))
      (TestifyLib.applyHook
        ((Suite.tests (TestifyLib.runCmds s cs)).foldl TestifyLib.runCase
          (TestifyLib.runCmds s cs))
        (Suite.afterHook
          ((Suite.tests (TestifyLib.runCmds s cs)).foldl TestifyLib.runCase
            (TestifyLib.runCmds s cs))))
    rw [e1]
    exact h3

/-! ### The claims -/

theorem recordsPass_op (pred : Bool) (hpred : pred = true) (m : Option String) :
    RecordsPass (fun s => Testify.recordTest s pred m) := by
  subst hpred
  exact recordsPass_recordTest m

theorem recordsFail_op (pred : Bool) (hpred : pred = false) (m : Option String) :
    RecordsFail (fun s => Testify.recordTest s pred m) := by
  subst hpred
  exact recordsFail_recordTest m

/-- The suite used for the end-to-end scenarios: one registered test case
(auto-named `"Test Case #1"`) whose body calls `assert(true)` then
`assert(false)`, and no hooks. -/
def suiteOneCase : Suite :=
  orOk (Constructor "Suite" false)
    (Testify.test (Constructor "Suite" false) none
      (.valid [.assert (.bool true) none, .assert (.bool false) none]))

/-- `suiteOneCase` with a before hook set (one `pass()` call). -/
def suiteWithBefore : Suite :=
  orOk suiteOneCase (Testify.before suiteOneCase (.valid [.pass none]))

/-- Record a sequence of outcomes through `recordTest`. -/
def recordMany (s : Suite) (l : List (Bool × Option String)) : Suite :=
  l.foldl (fun st pm => (Testify.recordTest st pm.1 pm.2).2) s

theorem recordMany_tests (l : List (Bool × Option String)) (s : Suite) :
    (recordMany s l).tests = s.tests := by
  induction l generalizing s with
  | nil => rfl
  | cons pm l ih => exact ih (Testify.recordTest s pm.1 pm.2).2

/-- C1: `assertEquals(0, "")` and `assertEquals(1, true)` each record a pass
and return `true` (coercive equality), while `assertSame(0, "")` and
`assertSame(1, true)` each record a fail and return `false` (strict
identity), from every suite state. -/
theorem claim1_equals_coercive_same_strict :
    RecordsPass (fun s => Testify.assertEquals s (.num 0) (.str "") none) ∧
    RecordsPass (fun s => Testify.assertEquals s (.num 1) (.bool true) none) ∧
    RecordsFail (fun s => Testify.assertSame s (.num 0) (.str "") none) ∧
    RecordsFail (fun s => Testify.assertSame s (.num 1) (.bool true) none) :=
  ⟨recordsPass_op _ (by decide) _, recordsPass_op _ (by decide) _,
   recordsFail_op _ (by decide) _, recordsFail_op _ (by decide) _⟩

/-- C2: running a suite with exactly one registered case whose body calls
`assert(true)` then `assert(false)` yields a CaseResult with pass = 1 and
fail = 1, SuiteResults with pass = 1 and fail = 1, and exactly two
AssertionRecords with sequence indices 1 and 2 in that order. -/
theorem claim2_end_to_end_one_case :
    (Testify.run suiteOneCase).stack =
      [(some "Test Case #1",
        { name := some "Test Case #1",
          tests :=
            [{ name := "Testify.assert", type := "", result := "pass",
               line := 1, file := "", source := "" },
             { name := "Testify.assert", type := "", result := "fail",
               line := 2, file := "", source := "" }],
          pass := 1, fail := 1 })] ∧
    (Testify.run suiteOneCase).suiteResults = { pass := 1, fail := 1 } ∧
    (Testify.run suiteOneCase).testIndex = 2 :=
  ⟨rfl, rfl, rfl⟩

/-- C3: after every sequence of registrations, hook settings, assertion calls
and runs on a fresh suite, the sum of `CaseResult.pass + CaseResult.fail`
over the stack equals `SuiteResults.pass + SuiteResults.fail`, which equals
the number of assertion calls made so far. -/
theorem claim3_counts_invariant (title : String) (cli : Bool) (ops : List Op) :
    stackSum (applyOpsCount (Constructor title cli, 0) ops).1.stack
        = (applyOpsCount (Constructor title cli, 0) ops).1.suiteResults.pass +
            (applyOpsCount (Constructor title cli, 0) ops).1.suiteResults.fail ∧
      (applyOpsCount (Constructor title cli, 0) ops).1.suiteResults.pass +
          (applyOpsCount (Constructor title cli, 0) ops).1.suiteResults.fail
        = (applyOpsCount (Constructor title cli, 0) ops).2 :=
  applyOpsCount_inv ops (Constructor title cli) 0 rfl rfl rfl

/-- C4: each recorded assertion receives sequence index `testIndex + 1` (one
more than the running counter, which starts at 0, so the first assertion gets
index 1); every suite operation advances `testIndex` by exactly the number of
assertions it records, so indices are never reused or reset. -/
theorem claim4_testIndex_monotone :
    (∀ (s : Suite) (p : Bool) (m : Option String),
      (Testify.recordTest s p m).2.testIndex = s.testIndex + 1 ∧
      lastLine (Testify.recordTest s p m).2 = some (s.testIndex + 1)) ∧
    (∀ (s : Suite) (op : Op),
      (applyOp s op).testIndex = s.testIndex + opAsserts s op) ∧
    (∀ (title : String) (cli : Bool), (Constructor title cli).testIndex = 0) :=
  ⟨fun s p m => ⟨rfl, Testify.recordTest_lastLine s p m⟩,
   applyOp_testIndex,
   fun _ _ => rfl⟩

/-- C5 (code bug): on the same no-hook suite, the part_000 copy's `run`
completes normally (recording 1 pass and 1 fail), while the
`src/lib/Testify/Testify.js` copy's `run` throws `TypeError`, because its
`isCallable(this._before)` guard dereferences `null.call` when no before
hook was ever set. -/
theorem claim5_run_before_guard_bug :
    TestifyLib.run suiteOneCase = .error .typeError ∧
    (Testify.run suiteOneCase).suiteResults = { pass := 1, fail := 1 } :=
  ⟨rfl, rfl⟩

/-- C6 (counterexample): passing `null` as a callback to a registration call
raises `TypeError` (from the `fn.call` property access inside `isCallable`),
not the claimed `TestifyException`. -/
theorem claim6_null_gives_typeError :
    Testify.test (Constructor "t" false) (some "case") (.invalid .null)
        = .error .typeError ∧
    Testify.before (Constructor "t" false) (.invalid .null)
        = .error .typeError ∧
    Testify.before (Constructor "t" false) (.invalid .null)
        ≠ .error (.testifyException "before(): is not a valid callback function!") := by
  refine ⟨rfl, rfl, fun hc => ?_⟩
  have h2 : (Except.error JSErr.typeError : Except JSErr Suite)
      = .error (.testifyException "before(): is not a valid callback function!") := hc
  exact absurd (Except.error.inj h2) (by decide)

/-- C6 (amended): for every non-invokable value other than `null` and
`undefined`, the registration call and all four hook setters raise
`TestifyException` synchronously; for `null` and `undefined` the callable
guard itself raises `TypeError` instead, so `TypeError` is a second error
kind the core can raise. -/
theorem claim6_amended_invalid_callback (v : JSVal) (nm : String) (s : Suite)
    (n : Option String)
    (h1 : v ≠ .null) (h2 : v ≠ .undefined) (h3 : v ≠ .fnVal) :
    affirmCallable v nm
        = .error (.testifyException (nm ++ "(): is not a valid callback function!")) ∧
    Testify.test s n (.invalid v)
        = .error (.testifyException "test(): is not a valid callback function!") ∧
    Testify.before s (.invalid v)
        = .error (.testifyException "before(): is not a valid callback function!") ∧
    Testify.after s (.invalid v)
        = .error (.testifyException "after(): is not a valid callback function!") ∧
    Testify.beforeEach s (.invalid v)
        = .error (.testifyException "beforeEach(): is not a valid callback function!") ∧
    Testify.afterEach s (.invalid v)
        = .error (.testifyException "afterEach(): is not a valid callback function!") ∧
    affirmCallable .null nm = .error .typeError ∧
    affirmCallable .undefined nm = .error .typeError := by
  cases v with
  | null => exact absurd rfl h1
  | undefined => exact absurd rfl h2
  | fnVal => exact absurd rfl h3
  | bool b => exact ⟨rfl, rfl, rfl, rfl, rfl, rfl, rfl, rfl⟩
  | num x => exact ⟨rfl, rfl, rfl, rfl, rfl, rfl, rfl, rfl⟩
  | nan => exact ⟨rfl, rfl, rfl, rfl, rfl, rfl, rfl, rfl⟩
  | str st => exact ⟨rfl, rfl, rfl, rfl, rfl, rfl, rfl, rfl⟩
  | arr xs => exact ⟨rfl, rfl, rfl, rfl, rfl, rfl, rfl, rfl⟩

theorem claim6_amended_invalid_callback_witness :
    JSVal.num 42 ≠ JSVal.null ∧
    affirmCallable (.num 42) "test"
      = .error (.testifyException ("test" ++ "(): is not a valid callback function!")) :=
  ⟨fun h => JSVal.noConfusion h,
   (claim6_amended_invalid_callback (.num 42) "test" (Constructor "t" false)
      (some "case") (fun h => JSVal.noConfusion h) (fun h => JSVal.noConfusion h)
      (fun h => JSVal.noConfusion h)).1⟩

/-- C7 (counterexample): `assertInArray(0, [false])` records a fail and
returns `false` — `Array.prototype.indexOf` uses strict equality, so the
claimed pass outcome is wrong on the code. -/
theorem claim7_inArray_strict_cex :
    (Testify.assertInArray (Constructor "t" false) (.num 0) [.bool false] none).1
        = false ∧
    (Testify.assertInArray (Constructor "t" false) (.num 0) [.bool false]
        none).2.suiteResults.fail = 1 ∧
    lastResult (Testify.assertInArray (Constructor "t" false) (.num 0)
        [.bool false] none).2 = some "fail" :=
  ⟨rfl, rfl, by decide⟩

/-- C7 (amended): `assertInArray`'s membership test is the linear scan
`indexOf` with strict equality, so both `assertInArray(0, [false])` and
`assertInArray(false, [0])` record a fail and return `false`. -/
theorem claim7_amended_inArray_strict :
    RecordsFail (fun s => Testify.assertInArray s (.num 0) [.bool false] none) ∧
    RecordsFail (fun s => Testify.assertInArray s (.bool false) [.num 0] none) ∧
    (∀ (s : Suite) (arg : JSVal) (xs : List JSVal) (m : Option String),
      (Testify.assertInArray s arg xs m).1 = decide (indexOf xs arg > -1)) :=
  ⟨recordsFail_op _ (by decide) _, recordsFail_op _ (by decide) _,
   fun _ _ _ _ => rfl⟩

/-- C8: recording an assertion changes only the stack, `testIndex` and
`suiteResults` of the owning suite: the registration list (whose entries keep
their zero pass/fail counters through any number of recorded assertions), the
current case name, the title, the mode flag, the four hooks, and every other
case's entry in the stack map are untouched. -/
theorem claim8_record_frame (s : Suite) (p : Bool) (m : Option String)
    (l : List (Bool × Option String)) (k : Option String)
    (hk : k ≠ s.currentTestCase)
    (h0 : ∀ e ∈ s.tests, e.pass = 0 ∧ e.fail = 0) :
    (Testify.recordTest s p m).2.tests = s.tests ∧
    (Testify.recordTest s p m).2.currentTestCase = s.currentTestCase ∧
    (Testify.recordTest s p m).2.suiteTitle = s.suiteTitle ∧
    (Testify.recordTest s p m).2.beforeHook = s.beforeHook ∧
    (Testify.recordTest s p m).2.afterHook = s.afterHook ∧
    (Testify.recordTest s p m).2.beforeEachHook = s.beforeEachHook ∧
    (Testify.recordTest s p m).2.afterEachHook = s.afterEachHook ∧
    (Testify.recordTest s p m).2.isCLI = s.isCLI ∧
    stackFind (Testify.recordTest s p m).2.stack k = stackFind s.stack k ∧
    (recordMany s l).tests = s.tests ∧
    (∀ e ∈ (recordMany s l).tests, e.pass = 0 ∧ e.fail = 0) := by
  refine ⟨rfl, rfl, rfl, rfl, rfl, rfl, rfl, rfl, ?_, recordMany_tests l s, ?_⟩
  · exact stackFind_stackStore_ne s.stack s.currentTestCase k _ hk
  · rw [recordMany_tests l s]
    exact h0

theorem claim8_record_frame_witness :
    (some "other" : Option String) ≠ suiteOneCase.currentTestCase ∧
    (Testify.recordTest suiteOneCase true none).2.tests = suiteOneCase.tests ∧
    (∀ e ∈ (recordMany suiteOneCase [(true, none), (false, none)]).tests,
      e.pass = 0 ∧ e.fail = 0) := by
  have h := claim8_record_frame suiteOneCase true none [(true, none), (false, none)]
    (some "other") (by decide) (by decide)
  exact ⟨by decide, h.1, h.2.2.2.2.2.2.2.2.2.2⟩

/-- C9 (counterexample): the two copies are not observationally equivalent:
`assert(true)` with no message records the message `'Testify.assert'` in the
part_000 copy but `'Testify.assertTrue'` in the lib copy, and on a suite with
no before hook the lib copy's `run` throws `TypeError` where the part_000
copy's `run` completes. -/
theorem claim9_copies_differ_cex :
    lastName (Testify.assert (Constructor "t" false) (.bool true) none).2
        = some "Testify.assert" ∧
    lastName (TestifyLib.assert (Constructor "t" false) (.bool true) none).2
        = some "Testify.assertTrue" ∧
    TestifyLib.run suiteOneCase = .error .typeError ∧
    (Testify.run suiteOneCase).testIndex = 2 :=
  ⟨by decide, by decide, rfl, rfl⟩

/-- C9 (amended): the two copies agree on every boolean return value and on
all recorded state except the message/trace strings inside assertion
records: `recordTest` returns the same outcome in both; every assertion call
maps corresponding states to corresponding states; and whenever a before
hook is set, the lib copy's `run` succeeds and corresponds to the part_000
copy's `run` (without one it throws, see the counterexample). -/
theorem claim9_amended_correspondence :
    (∀ (s : Suite) (p : Bool) (m : Option String),
      (Testify.recordTest s p m).1 = (TestifyLib.recordTest s p m).1) ∧
    (∀ (a b : Suite), Corresponds a b → ∀ c : Cmd,
      Corresponds (Testify.execCmd a c) (TestifyLib.execCmd b c)) ∧
    (∀ (s : Suite) (cs : List Cmd), s.beforeHook = some cs →
      ∃ s2, TestifyLib.run s = .ok s2 ∧ Corresponds (Testify.run s) s2) :=
  ⟨fun _ _ _ => rfl,
   fun a b h c => execCmd_corresponds a b h c,
   fun s cs hb => run_corresponds s cs hb⟩

theorem claim9_amended_correspondence_witness :
    Corresponds (Testify.execCmd (Constructor "w" false) (.pass none))
        (TestifyLib.execCmd (Constructor "w" false) (.pass none)) ∧
    (∃ s2, TestifyLib.run suiteWithBefore = .ok s2 ∧
      Corresponds (Testify.run suiteWithBefore) s2) :=
  ⟨claim9_amended_correspondence.2.1 (Constructor "w" false)
      (Constructor "w" false) ⟨rfl, rfl, rfl, rfl, rfl, rfl, rfl, rfl, rfl, rfl, rfl⟩
      (.pass none),
   claim9_amended_correspondence.2.2 suiteWithBefore [.pass none] rfl⟩

/-- C10: `assert`/`assertTrue` test coercive equality to `true`, not
truthiness — the truthy arguments `2` and `"yes"` record fails — and
`assertFalse` tests coercive equality to `false`, so `assertFalse("")`
records a pass. -/
theorem claim10_assert_coerces_to_true :
    RecordsFail (fun s => Testify.assertTrue s (.num 2) none) ∧
    RecordsFail (fun s => Testify.assertTrue s (.str "yes") none) ∧
    RecordsFail (fun s => Testify.assert s (.num 2) none) ∧
    RecordsPass (fun s => Testify.assertFalse s (.str "") none) :=
  ⟨recordsFail_op _ (by decide) _, recordsFail_op _ (by decide) _,
   recordsFail_op _ (by decide) _, recordsPass_op _ (by decide) _⟩
